import Mathlib

/-!
Shallow embedding of `hailo_apps/config/config_core.py`: the pure
configuration-resolution engine (YAML document model, model-slot
normalization, catalog accessors, input-alias resolution, gen-ai
classification) together with theorems checking the specification
claims about it.

Python values read from YAML are modelled by the `Yaml` tree below;
Python `dict` values appear as association lists with string keys (the
documents in question are string-keyed mappings).  Attribute errors
raised by calling `.get`/`.items()` on a non-dict value are modelled by
`Except String` with the error string "AttributeError".
-/

namespace ConfigCore

/-- A parsed YAML value: null, booleans, integers, strings, sequences and
string-keyed mappings, mirroring what `yaml.safe_load` produces for the
configuration documents. -/
inductive Yaml where
  | null : Yaml
  | bool : Bool → Yaml
  | int : Int → Yaml
  | str : String → Yaml
  | list : List Yaml → Yaml
  | map : List (String × Yaml) → Yaml

/-- Whether a value is a mapping (Python `isinstance(v, dict)`). -/
def Yaml.isMap : Yaml → Bool
  | Yaml.map _ => true
  | _ => false

/-- Python truthiness (`bool(v)`) of a parsed YAML value. -/
def truthy : Yaml → Bool
  | Yaml.null => false
  | Yaml.bool b => b
  | Yaml.int n => n != 0
  | Yaml.str s => s != ""
  | Yaml.list xs => !xs.isEmpty
  | Yaml.map kvs => !kvs.isEmpty

/-- `d.get(k, default)` on a mapping known to be a dict (association-list
lookup with a default). -/
def mapGet (kvs : List (String × Yaml)) (k : String) (d : Yaml) : Yaml :=
  (kvs.lookup k).getD d

/-- `v.get(k, default)` on an arbitrary value: raises `AttributeError`
when `v` is not a dict. -/
def pyGet (v : Yaml) (k : String) (d : Yaml) : Except String Yaml :=
  match v with
  | Yaml.map kvs => Except.ok (mapGet kvs k d)
  | _ => Except.error "AttributeError"

/-- `v.items()` on an arbitrary value: raises `AttributeError` when `v`
is not a dict. -/
def pyItems : Yaml → Except String (List (String × Yaml))
  | Yaml.map kvs => Except.ok kvs
  | _ => Except.error "AttributeError"

/-- Python `s.lower()` as a character-wise case map over the string
content (exactly Python for the ASCII letters that can case-fold onto
the sentinel "none"). -/
def pyLower (s : String) : String := ⟨s.data.map Char.toLower⟩

/-- `_is_none(value)`: `value is None or (isinstance(value, str) and
value.lower() == "none")`. -/
def _is_none : Yaml → Bool
  | Yaml.null => true
  | Yaml.str s => pyLower s == "none"
  | _ => false

/-- The `ModelEntry` frozen dataclass.  Python does not enforce the
declared field types at runtime, so each field holds the raw value that
was stored in it; the dataclass default `url=None` is `Yaml.null`. -/
structure ModelEntry where
  name : Yaml
  source : Yaml
  url : Yaml

/-- `entry if isinstance(entry, list) else [entry]`. -/
def asSeq : Yaml → List Yaml
  | Yaml.list xs => xs
  | e => [e]

/-- The `for e in entries` accumulation loop of `_extract_models`. -/
def extract_loop : List Yaml → List ModelEntry
  | [] => []
  | e :: rest =>
    if _is_none e then extract_loop rest
    else
      match e with
      | Yaml.map kvs =>
          if _is_none (mapGet kvs "name" Yaml.null) then extract_loop rest
          else
            ⟨mapGet kvs "name" Yaml.null,
             mapGet kvs "source" (Yaml.str "mz"),
             mapGet kvs "url" Yaml.null⟩ :: extract_loop rest
      | Yaml.str s =>
          ⟨Yaml.str s, Yaml.str "mz", Yaml.null⟩ :: extract_loop rest
      | _ => extract_loop rest

/-- `_extract_models(entry)`: normalize a raw model-slot value into a
list of `ModelEntry`. -/
def _extract_models (entry : Yaml) : List ModelEntry :=
  if _is_none entry then []
  else extract_loop (asSeq entry)

/-- Written from the wording of the normalization algorithm in the spec
(section 4.5, steps 3a-3d): the entry produced by one element of the
(possibly singleton) sequence, or none when the element is skipped. -/
def specElem : Yaml → Option ModelEntry
  | Yaml.null => none
  | Yaml.str s =>
      if pyLower s == "none" then none
      else some ⟨Yaml.str s, Yaml.str "mz", Yaml.null⟩
  | Yaml.map kvs =>
      if _is_none (mapGet kvs "name" Yaml.null) then none
      else some ⟨mapGet kvs "name" Yaml.null,
                 mapGet kvs "source" (Yaml.str "mz"),
                 mapGet kvs "url" Yaml.null⟩
  | _ => none

/-- Written from the wording of the normalization algorithm in the spec
(section 4.5, steps 1-3): null-sentinel slots contribute nothing, a
single string or mapping is a one-element sequence, elements are
normalized by `specElem` with failures skipped, order preserved. -/
def specNormalize (raw : Yaml) : List ModelEntry :=
  if _is_none raw then []
  else (asSeq raw).filterMap specElem

theorem _is_none_null : _is_none Yaml.null = true := rfl

theorem _is_none_bool (b : Bool) : _is_none (Yaml.bool b) = false := rfl

theorem _is_none_int (n : Int) : _is_none (Yaml.int n) = false := rfl

theorem _is_none_str (s : String) : _is_none (Yaml.str s) = (pyLower s == "none") := rfl

theorem _is_none_list (xs : List Yaml) : _is_none (Yaml.list xs) = false := rfl

theorem _is_none_map (kvs : List (String × Yaml)) : _is_none (Yaml.map kvs) = false := rfl

theorem extract_loop_eq_filterMap (l : List Yaml) :
    extract_loop l = l.filterMap specElem := by
  induction l with
  | nil => rfl
  | cons e rest ih =>
    cases e with
    | null => simpa [extract_loop, specElem, _is_none_null, List.filterMap_cons] using ih
    | bool b => simpa [extract_loop, specElem, _is_none_bool, List.filterMap_cons] using ih
    | int n => simpa [extract_loop, specElem, _is_none_int, List.filterMap_cons] using ih
    | list xs => simpa [extract_loop, specElem, _is_none_list, List.filterMap_cons] using ih
    | str s =>
        by_cases h : (pyLower s == "none") = true
        · simpa [extract_loop, specElem, _is_none_str, h, List.filterMap_cons] using ih
        · simpa [extract_loop, specElem, _is_none_str, h, List.filterMap_cons] using ih
    | map kvs =>
        by_cases h : _is_none (mapGet kvs "name" Yaml.null) = true
        · simpa [extract_loop, specElem, _is_none_map, h, List.filterMap_cons] using ih
        · simpa [extract_loop, specElem, _is_none_map, h, List.filterMap_cons] using ih

/-- Claim C1: for every raw model-slot value, `_extract_models` returns
exactly the sequence prescribed by the normalization algorithm of the
spec: null-sentinel slots contribute zero entries, a single string or
mapping is treated as a one-element sequence, null-sentinel elements are
skipped, mappings with a usable name yield an entry with source
defaulting to "mz" and url defaulting to null, bare strings yield an
entry with source "mz" and no url, other shapes are skipped, and source
order is preserved. -/
theorem c1_extract_models_matches_spec (raw : Yaml) :
    _extract_models raw = specNormalize raw := by
  unfold _extract_models specNormalize
  rw [extract_loop_eq_filterMap]

/-- Lexicographic comparison of character lists by code point, the
ordering Python uses to compare strings. -/
def charListLe : List Char → List Char → Bool
  | [], _ => true
  | _ :: _, [] => false
  | c :: cs, d :: ds => if c = d then charListLe cs ds else decide (c < d)

/-- Python `a <= b` on strings: code-point lexicographic order. -/
def pyStrLe (a b : String) : Bool := charListLe a.data b.data

/-- Python `sorted` on a list of strings.  For strings every sorted
permutation of a list is the same list, so a structurally recursive
insertion sort under the Python string order is an exact embedding of
`sorted`. -/
def sortStrings (xs : List String) : List String :=
  List.insertionSort (fun a b => pyStrLe a b = true) xs

/-- The reserved top-level keys skipped by `get_available_apps`. -/
def skipKeys : List String := ["videos", "images", "json", "inputs", "inputs_aliases"]

/-- `get_available_apps()`, parameterized by the resource document
(a string-keyed mapping, as `get_resources_config` declares). -/
def get_available_apps (cfg : List (String × Yaml)) : List String :=
  sortStrings ((cfg.filter (fun kv => Yaml.isMap kv.2 && !(skipKeys.contains kv.1))).map Prod.fst)

/-- `get_supported_architectures(app)`: `cfg.get(app, {}).get("models", {})`
followed by sorting the keys of `models.items()` whose value is a dict.
The two chained attribute accesses can raise `AttributeError`. -/
def get_supported_architectures (cfg : List (String × Yaml)) (app : String) :
    Except String (List String) :=
  match pyGet (mapGet cfg app (Yaml.map [])) "models" (Yaml.map []) with
  | Except.error e => Except.error e
  | Except.ok models =>
    match pyItems models with
    | Except.error e => Except.error e
    | Except.ok items =>
        Except.ok (sortStrings ((items.filter (fun kv => Yaml.isMap kv.2)).map Prod.fst))

/-- `get_default_models(app, arch)`:
`_extract_models(cfg.get(app, {}).get("models", {}).get(arch, {}).get("default"))`. -/
def get_default_models (cfg : List (String × Yaml)) (app arch : String) :
    Except String (List ModelEntry) :=
  match pyGet (mapGet cfg app (Yaml.map [])) "models" (Yaml.map []) with
  | Except.error e => Except.error e
  | Except.ok models =>
    match pyGet models arch (Yaml.map []) with
    | Except.error e => Except.error e
    | Except.ok archVal =>
      match pyGet archVal "default" Yaml.null with
      | Except.error e => Except.error e
      | Except.ok slot => Except.ok (_extract_models slot)

/-- `get_extra_models(app, arch)`:
`_extract_models(cfg.get(app, {}).get("models", {}).get(arch, {}).get("extra"))`. -/
def get_extra_models (cfg : List (String × Yaml)) (app arch : String) :
    Except String (List ModelEntry) :=
  match pyGet (mapGet cfg app (Yaml.map [])) "models" (Yaml.map []) with
  | Except.error e => Except.error e
  | Except.ok models =>
    match pyGet models arch (Yaml.map []) with
    | Except.error e => Except.error e
    | Except.ok archVal =>
      match pyGet archVal "extra" Yaml.null with
      | Except.error e => Except.error e
      | Except.ok slot => Except.ok (_extract_models slot)

/-- `get_all_models(app, arch) = get_default_models(...) + get_extra_models(...)`. -/
def get_all_models (cfg : List (String × Yaml)) (app arch : String) :
    Except String (List ModelEntry) :=
  match get_default_models cfg app arch with
  | Except.error e => Except.error e
  | Except.ok d =>
    match get_extra_models cfg app arch with
    | Except.error e => Except.error e
    | Except.ok ex => Except.ok (d ++ ex)

/-- Python `==` between a stored value and a `str` operand: true exactly
when the value is that same string. -/
def yamlEqStr (v : Yaml) (s : String) : Bool :=
  match v with
  | Yaml.str t => t == s
  | _ => false

/-- The `for m in get_all_models(...)` lookup loop of `get_model_info`. -/
def find_model (model : String) : List ModelEntry → Option ModelEntry
  | [] => none
  | m :: rest => if yamlEqStr m.name model then some m else find_model model rest

/-- `get_model_info(app, arch, model)`. -/
def get_model_info (cfg : List (String × Yaml)) (app arch model : String) :
    Except String (Option ModelEntry) :=
  match get_all_models cfg app arch with
  | Except.error e => Except.error e
  | Except.ok ms => Except.ok (find_model model ms)

/-- `resolve_inputs_app(app)`: `cfg.get("inputs_aliases", {}).get(app, app)`.
The second `.get` raises `AttributeError` when the `inputs_aliases` value
is present but not a dict. -/
def resolve_inputs_app (cfg : List (String × Yaml)) (app : String) : Except String Yaml :=
  pyGet (mapGet cfg "inputs_aliases" (Yaml.map [])) app (Yaml.str app)

/-- The architecture loop of `is_gen_ai_app`: scans each architecture in
order, resolving all its models and returning true on the first model
whose source equals "gen-ai-mz". -/
def genAiLoop (cfg : List (String × Yaml)) (app : String) : List String → Except String Bool
  | [] => Except.ok false
  | arch :: rest =>
    match get_all_models cfg app arch with
    | Except.error e => Except.error e
    | Except.ok ms =>
        if ms.any (fun m => yamlEqStr m.source "gen-ai-mz") then Except.ok true
        else genAiLoop cfg app rest

/-- `is_gen_ai_app(app)`. -/
def is_gen_ai_app (cfg : List (String × Yaml)) (app : String) : Except String Bool :=
  match get_supported_architectures cfg app with
  | Except.error e => Except.error e
  | Except.ok archs => genAiLoop cfg app archs

/-- The single `ConfigError` exception, with its two message shapes:
missing file (carrying the attempted path) and invalid YAML (carrying
the path and the wrapped parser error). -/
inductive ConfigError where
  | missing : String → ConfigError
  | invalid : String → String → ConfigError

/-- `x or {}` in Python: the left value when truthy, else the empty dict. -/
def pyOr (v d : Yaml) : Yaml :=
  if truthy v then v else d

/-- `_load_yaml(path)`.  The file system and the YAML parser are external
to the code, so they enter as parameters: `pathExists` is the result of
`path.exists()` and `parsed` is the outcome of `yaml.safe_load` on the
file content (a parsed value, or the parser error message). -/
def _load_yaml (pathExists : Bool) (parsed : Except String Yaml) (path : String) :
    Except ConfigError Yaml :=
  if !pathExists then Except.error (ConfigError.missing path)
  else
    match parsed with
    | Except.error e => Except.error (ConfigError.invalid path e)
    | Except.ok v => Except.ok (pyOr v (Yaml.map []))

/-- The end-to-end example resource document of the spec (section 8). -/
def sampleDoc : List (String × Yaml) :=
  [("detection", Yaml.map
     [("models", Yaml.map
        [("hailo8", Yaml.map
           [("default", Yaml.map
              [("name", Yaml.str "yolov8s"), ("source", Yaml.str "mz")]),
            ("extra", Yaml.list
              [Yaml.map [("name", Yaml.str "yolov8m"), ("source", Yaml.str "mz"),
                         ("url", Yaml.str "http://x/y.hef")],
               Yaml.str "yolov8n"])])])])]

/-- A minimal resource document with one generative app. -/
def genAiDoc : List (String × Yaml) :=
  [("chat", Yaml.map
     [("models", Yaml.map
        [("hailo10", Yaml.map
           [("default", Yaml.map
              [("name", Yaml.str "qwen"), ("source", Yaml.str "gen-ai-mz")])])])])]

/-- Claim C2, counterexample: a present but non-mapping app value does
not give an empty architecture list — the chained attribute access
raises `AttributeError`, contradicting the claim that structural
malformation is answered with empty results and no error. -/
theorem c2_counterexample :
    get_supported_architectures [("app1", Yaml.str "boom")] "app1" =
      Except.error "AttributeError" ∧
    get_supported_architectures [("app1", Yaml.str "boom")] "app1" ≠
      Except.ok [] := by
  refine ⟨rfl, fun h => ?_⟩
  rw [show get_supported_architectures [("app1", Yaml.str "boom")] "app1" =
        Except.error "AttributeError" from rfl] at h
  exact Except.noConfusion h

/-- Claim C2 (amended): structural ABSENCE is empty, not fatal: when the
app key, the models key under a mapping-valued app, or the architecture
key under a mapping-valued models entry is absent, the accessors return
empty lists without error.  (A present non-mapping value at those spots
instead raises `AttributeError`, see the counterexample.) -/
theorem c2_absence_is_empty (cfg : List (String × Yaml)) (app arch : String) :
    (cfg.lookup app = none →
        get_supported_architectures cfg app = Except.ok [] ∧
        get_default_models cfg app arch = Except.ok [] ∧
        get_extra_models cfg app arch = Except.ok []) ∧
    (∀ a, cfg.lookup app = some (Yaml.map a) → a.lookup "models" = none →
        get_supported_architectures cfg app = Except.ok [] ∧
        get_default_models cfg app arch = Except.ok [] ∧
        get_extra_models cfg app arch = Except.ok []) ∧
    (∀ a ms, cfg.lookup app = some (Yaml.map a) →
        a.lookup "models" = some (Yaml.map ms) → ms.lookup arch = none →
        get_default_models cfg app arch = Except.ok [] ∧
        get_extra_models cfg app arch = Except.ok []) := by
  refine ⟨fun h => ?_, fun a h hm => ?_, fun a ms h hm ha => ?_⟩
  · refine ⟨?_, ?_, ?_⟩ <;>
      simp [get_supported_architectures, get_default_models, get_extra_models,
            mapGet, pyGet, pyItems, h, sortStrings, _extract_models, _is_none_null]
  · refine ⟨?_, ?_, ?_⟩ <;>
      simp [get_supported_architectures, get_default_models, get_extra_models,
            mapGet, pyGet, pyItems, h, hm, sortStrings, _extract_models, _is_none_null]
  · refine ⟨?_, ?_⟩ <;>
      simp [get_default_models, get_extra_models,
            mapGet, pyGet, pyItems, h, hm, ha, _extract_models, _is_none_null]

/-- Claim C2, witness: the amended theorem applied to a document without
the queried app. -/
theorem c2_witness :
    get_supported_architectures [] "detection" = Except.ok [] ∧
    get_default_models [] "detection" "hailo8" = Except.ok [] := by
  refine ⟨((c2_absence_is_empty [] "detection" "hailo8").1 rfl).1,
          ((c2_absence_is_empty [] "detection" "hailo8").1 rfl).2.1⟩

theorem extract_loop_name_not_none :
    ∀ l : List Yaml, ∀ m : ModelEntry, m ∈ extract_loop l → _is_none m.name = false := by
  intro l
  induction l with
  | nil => intro m h; simp [extract_loop] at h
  | cons e rest ih =>
    intro m h
    cases e with
    | null => exact ih m (by simpa [extract_loop, _is_none_null] using h)
    | bool b => exact ih m (by simpa [extract_loop, _is_none_bool] using h)
    | int n => exact ih m (by simpa [extract_loop, _is_none_int] using h)
    | list xs => exact ih m (by simpa [extract_loop, _is_none_list] using h)
    | str s =>
        cases hs : (pyLower s == "none") with
        | true => exact ih m (by simpa [extract_loop, _is_none_str, hs] using h)
        | false =>
            have h2 : m = ModelEntry.mk (Yaml.str s) (Yaml.str "mz") Yaml.null ∨
                m ∈ extract_loop rest := by
              simpa [extract_loop, _is_none_str, hs] using h
            cases h2 with
            | inl h3 => rw [h3, _is_none_str]; exact hs
            | inr h3 => exact ih m h3
    | map kvs =>
        cases hs : _is_none (mapGet kvs "name" Yaml.null) with
        | true => exact ih m (by simpa [extract_loop, _is_none_map, hs] using h)
        | false =>
            have h2 : m = ModelEntry.mk (mapGet kvs "name" Yaml.null)
                (mapGet kvs "source" (Yaml.str "mz")) (mapGet kvs "url" Yaml.null) ∨
                m ∈ extract_loop rest := by
              simpa [extract_loop, _is_none_map, hs] using h
            cases h2 with
            | inl h3 => rw [h3]; exact hs
            | inr h3 => exact ih m h3

/-- Claim C3, counterexample: a mapping element whose name is the empty
string is NOT dropped — `_extract_models` returns an entry whose name is
the empty string, because the null-sentinel test case-folds only the
literal "none" and treats "" as a usable name. -/
theorem c3_counterexample :
    _extract_models (Yaml.map [("name", Yaml.str "")]) =
      [ModelEntry.mk (Yaml.str "") (Yaml.str "mz") Yaml.null] ∧
    (ModelEntry.mk (Yaml.str "") (Yaml.str "mz") Yaml.null).name = Yaml.str "" :=
  ⟨rfl, rfl⟩

/-- Claim C3 (amended): every entry produced by `_extract_models` has a
name that fails the null-sentinel test `_is_none` (it is neither null
nor, for strings, the case-insensitive "none"); entries with a
null-sentinel name are dropped during normalization, never raised as
errors — but an empty-string name is kept, not dropped. -/
theorem c3_names_not_null_sentinel (raw : Yaml) (m : ModelEntry)
    (h : m ∈ _extract_models raw) : _is_none m.name = false := by
  unfold _extract_models at h
  by_cases h0 : _is_none raw = true
  · rw [if_pos h0] at h; simp at h
  · rw [if_neg h0] at h; exact extract_loop_name_not_none _ m h

/-- Claim C3, witness: the amended theorem applied to a bare-string slot. -/
theorem c3_witness :
    _is_none (ModelEntry.mk (Yaml.str "yolov8s") (Yaml.str "mz") Yaml.null).name = false :=
  c3_names_not_null_sentinel (Yaml.str "yolov8s")
    (ModelEntry.mk (Yaml.str "yolov8s") (Yaml.str "mz") Yaml.null)
    (List.mem_singleton.mpr rfl)

/-- Claim C4, counterexample: `resolve_inputs_app` is not total over all
resource documents — an `inputs_aliases` key holding null (as an empty
`inputs_aliases:` YAML section does) makes the second `.get` raise
`AttributeError` instead of returning a string. -/
theorem c4_counterexample :
    resolve_inputs_app [("inputs_aliases", Yaml.null)] "llm_chat" =
      Except.error "AttributeError" := rfl

/-- Claim C4 (amended): whenever the `inputs_aliases` value is a mapping
(in particular whenever the key is absent, which defaults to the empty
mapping), `resolve_inputs_app` returns the value mapped under the app
when such an entry exists and the app name itself otherwise; it never
fails on such documents, but the mapped value is whatever the document
holds (a string only when the alias map is string-valued), and a present
non-mapping `inputs_aliases` value raises `AttributeError`. -/
theorem c4_alias_lookup (cfg : List (String × Yaml)) (app : String)
    (al : List (String × Yaml))
    (h : mapGet cfg "inputs_aliases" (Yaml.map []) = Yaml.map al) :
    resolve_inputs_app cfg app = Except.ok ((al.lookup app).getD (Yaml.str app)) ∧
    (al.lookup app = none → resolve_inputs_app cfg app = Except.ok (Yaml.str app)) := by
  constructor
  · unfold resolve_inputs_app
    rw [h]
    rfl
  · intro hn
    unfold resolve_inputs_app
    rw [h]
    simp [pyGet, mapGet, hn]

/-- Claim C4, witness: the amended theorem at the alias example of the
spec — an aliased app resolves to its target, an unaliased one to
itself. -/
theorem c4_witness :
    resolve_inputs_app [("inputs_aliases", Yaml.map [("llm_chat", Yaml.str "chat")])]
      "llm_chat" = Except.ok (Yaml.str "chat") ∧
    resolve_inputs_app [] "llm_chat" = Except.ok (Yaml.str "llm_chat") :=
  ⟨(c4_alias_lookup [("inputs_aliases", Yaml.map [("llm_chat", Yaml.str "chat")])]
      "llm_chat" [("llm_chat", Yaml.str "chat")] rfl).1,
   (c4_alias_lookup [] "llm_chat" [] rfl).2 rfl⟩

/-- Claim C5: loading fails exactly for the two file-level error
conditions — a nonexistent path raises the missing-config error carrying
the attempted path, an existing file whose content the parser rejects
raises the invalid-config error wrapping the parser error, and an
existing file parsing to null yields the empty mapping, never an
error. -/
theorem c5_load_yaml_error_conditions (pathExists : Bool) (parsed : Except String Yaml)
    (path : String) :
    (pathExists = false →
        _load_yaml pathExists parsed path = Except.error (ConfigError.missing path)) ∧
    (∀ msg, pathExists = true → parsed = Except.error msg →
        _load_yaml pathExists parsed path = Except.error (ConfigError.invalid path msg)) ∧
    (pathExists = true → parsed = Except.ok Yaml.null →
        _load_yaml pathExists parsed path = Except.ok (Yaml.map [])) ∧
    (∀ v, pathExists = true → parsed = Except.ok v →
        ∃ w, _load_yaml pathExists parsed path = Except.ok w) := by
  refine ⟨fun h => by simp [_load_yaml, h],
          fun msg h1 h2 => by simp [_load_yaml, h1, h2],
          fun h1 h2 => by simp [_load_yaml, h1, h2, pyOr, truthy],
          fun v h1 h2 => ⟨pyOr v (Yaml.map []), by simp [_load_yaml, h1, h2]⟩⟩

/-- Claim C5, witness: the three error-behavior branches at concrete
loads. -/
theorem c5_witness :
    _load_yaml false (Except.ok Yaml.null) "cfg.yaml" =
      Except.error (ConfigError.missing "cfg.yaml") ∧
    _load_yaml true (Except.error "bad token") "cfg.yaml" =
      Except.error (ConfigError.invalid "cfg.yaml" "bad token") ∧
    _load_yaml true (Except.ok Yaml.null) "cfg.yaml" = Except.ok (Yaml.map []) :=
  ⟨(c5_load_yaml_error_conditions false (Except.ok Yaml.null) "cfg.yaml").1 rfl,
   (c5_load_yaml_error_conditions true (Except.error "bad token") "cfg.yaml").2.1
     "bad token" rfl rfl,
   (c5_load_yaml_error_conditions true (Except.ok Yaml.null) "cfg.yaml").2.2.1 rfl rfl⟩

/-- Claim C6: whenever both tiers resolve, `get_all_models` is exactly
the default-tier list followed by the extra-tier list, order preserved,
no deduplication. -/
theorem c6_all_models_is_concat (cfg : List (String × Yaml)) (app arch : String)
    (d ex : List ModelEntry)
    (h1 : get_default_models cfg app arch = Except.ok d)
    (h2 : get_extra_models cfg app arch = Except.ok ex) :
    get_all_models cfg app arch = Except.ok (d ++ ex) := by
  unfold get_all_models
  rw [h1, h2]

/-- Claim C6, witness: the end-to-end document of the spec, where the
default tier has one entry and the extra tier two, concatenated in
order. -/
theorem c6_witness :
    get_all_models sampleDoc "detection" "hailo8" =
      Except.ok
        [ModelEntry.mk (Yaml.str "yolov8s") (Yaml.str "mz") Yaml.null,
         ModelEntry.mk (Yaml.str "yolov8m") (Yaml.str "mz") (Yaml.str "http://x/y.hef"),
         ModelEntry.mk (Yaml.str "yolov8n") (Yaml.str "mz") Yaml.null] :=
  c6_all_models_is_concat sampleDoc "detection" "hailo8"
    [ModelEntry.mk (Yaml.str "yolov8s") (Yaml.str "mz") Yaml.null]
    [ModelEntry.mk (Yaml.str "yolov8m") (Yaml.str "mz") (Yaml.str "http://x/y.hef"),
     ModelEntry.mk (Yaml.str "yolov8n") (Yaml.str "mz") Yaml.null]
    rfl rfl

theorem find_model_eq_find (model : String) (l : List ModelEntry) :
    find_model model l = l.find? (fun m => yamlEqStr m.name model) := by
  induction l with
  | nil => rfl
  | cons m rest ih =>
    cases hm : yamlEqStr m.name model with
    | true => simp [find_model, List.find?, hm]
    | false => simp [find_model, List.find?, hm, ih]

/-- Claim C7: whenever both tiers resolve, `get_model_info` returns the
first entry of the concatenated model list whose stored name equals the
queried name — so a default-tier entry wins over an extra-tier entry
with the same name — and a not-found `none` when no entry matches. -/
theorem c7_model_info_first_match (cfg : List (String × Yaml))
    (app arch model : String) (d ex : List ModelEntry)
    (h1 : get_default_models cfg app arch = Except.ok d)
    (h2 : get_extra_models cfg app arch = Except.ok ex) :
    get_model_info cfg app arch model =
      Except.ok ((d ++ ex).find? (fun m => yamlEqStr m.name model)) ∧
    (d ++ ex).find? (fun m => yamlEqStr m.name model) =
      ((d.find? (fun m => yamlEqStr m.name model)).or
        (ex.find? (fun m => yamlEqStr m.name model))) ∧
    ((∀ m ∈ d ++ ex, yamlEqStr m.name model = false) →
        get_model_info cfg app arch model = Except.ok none) := by
  have hall : get_all_models cfg app arch = Except.ok (d ++ ex) := by
    unfold get_all_models
    rw [h1, h2]
  refine ⟨?_, List.find?_append, fun hnone => ?_⟩
  · unfold get_model_info
    rw [hall]
    show Except.ok (find_model model (d ++ ex)) =
      Except.ok ((d ++ ex).find? (fun m => yamlEqStr m.name model))
    rw [find_model_eq_find]
  · unfold get_model_info
    rw [hall]
    show Except.ok (find_model model (d ++ ex)) = Except.ok none
    rw [find_model_eq_find]
    have hfind : (d ++ ex).find? (fun m => yamlEqStr m.name model) = none := by
      rw [List.find?_eq_none]
      intro m hm
      simp [hnone m hm]
    rw [hfind]

/-- Claim C7, witness: on the end-to-end document of the spec, looking
up the extra-tier model by name finds it, and the scan is the
first-match scan of the concatenated tiers. -/
theorem c7_witness :
    get_model_info sampleDoc "detection" "hailo8" "yolov8n" =
      Except.ok (some (ModelEntry.mk (Yaml.str "yolov8n") (Yaml.str "mz") Yaml.null)) :=
  (c7_model_info_first_match sampleDoc "detection" "hailo8" "yolov8n"
    [ModelEntry.mk (Yaml.str "yolov8s") (Yaml.str "mz") Yaml.null]
    [ModelEntry.mk (Yaml.str "yolov8m") (Yaml.str "mz") (Yaml.str "http://x/y.hef"),
     ModelEntry.mk (Yaml.str "yolov8n") (Yaml.str "mz") Yaml.null]
    rfl rfl).1

/-- Claim C10: on an existing file that parses successfully, `_load_yaml`
returns the parsed value when it is truthy and the empty mapping
otherwise — every falsy parse (null, false, 0, the empty string, the
empty sequence, the empty mapping) collapses to the empty mapping, while
a truthy value of any shape, mapping or not, is returned unchanged. -/
theorem c10_load_yaml_truthiness (v : Yaml) (path : String) :
    ((v = Yaml.null ∨ v = Yaml.bool false ∨ v = Yaml.int 0 ∨ v = Yaml.str "" ∨
        v = Yaml.list [] ∨ v = Yaml.map []) →
      _load_yaml true (Except.ok v) path = Except.ok (Yaml.map [])) ∧
    (truthy v = true → _load_yaml true (Except.ok v) path = Except.ok v) := by
  constructor
  · intro h
    rcases h with h | h | h | h | h | h <;> subst h <;> rfl
  · intro h
    simp [_load_yaml, pyOr, h]

/-- Claim C10, witness: a falsy non-null parse collapses to the empty
mapping; a truthy non-mapping parse is returned unchanged. -/
theorem c10_witness :
    _load_yaml true (Except.ok (Yaml.list [])) "res.yaml" = Except.ok (Yaml.map []) ∧
    _load_yaml true (Except.ok (Yaml.list [Yaml.int 1])) "res.yaml" =
      Except.ok (Yaml.list [Yaml.int 1]) :=
  ⟨(c10_load_yaml_truthiness (Yaml.list []) "res.yaml").1
     (Or.inr (Or.inr (Or.inr (Or.inr (Or.inl rfl))))),
   (c10_load_yaml_truthiness (Yaml.list [Yaml.int 1]) "res.yaml").2 rfl⟩

theorem genAiLoop_ok_iff :
    ∀ (cfg : List (String × Yaml)) (app : String) (l : List String) (b : Bool),
      genAiLoop cfg app l = Except.ok b →
      (b = true ↔ ∃ arch ∈ l, ∃ ms, get_all_models cfg app arch = Except.ok ms ∧
        ∃ m ∈ ms, yamlEqStr m.source "gen-ai-mz" = true) := by
  intro cfg app l
  induction l with
  | nil =>
    intro b h
    have hb : Except.ok (ε := String) false = Except.ok b := h
    cases hb
    simp
  | cons arch rest ih =>
    intro b h
    cases hg : get_all_models cfg app arch with
    | error e =>
        rw [genAiLoop, hg] at h
        exact Except.noConfusion (show Except.error e = Except.ok b from h)
    | ok ms =>
        rw [genAiLoop, hg] at h
        have h3 : (if (ms.any fun m => yamlEqStr m.source "gen-ai-mz") = true
            then Except.ok true else genAiLoop cfg app rest) = Except.ok b := h
        by_cases hany : (ms.any fun m => yamlEqStr m.source "gen-ai-mz") = true
        · rw [if_pos hany] at h3
          cases h3
          simp only [true_iff]
          refine ⟨arch, List.mem_cons_self arch rest, ms, hg, ?_⟩
          simpa [List.any_eq_true] using hany
        · rw [if_neg hany] at h3
          have hrest := ih b h3
          constructor
          · intro hb
            rcases hrest.mp hb with ⟨a, hmem, tail⟩
            exact ⟨a, List.mem_cons_of_mem arch hmem, tail⟩
          · rintro ⟨a, hmem, ms2, hg2, m, hm, hsrc⟩
            rcases List.mem_cons.mp hmem with heq | hmem2
            · subst heq
              rw [hg] at hg2
              cases hg2
              exact absurd (List.any_eq_true.mpr ⟨m, hm, hsrc⟩) hany
            · exact hrest.mpr ⟨a, hmem2, ms2, hg2, m, hm, hsrc⟩

/-- Claim C8: when `is_gen_ai_app` returns a boolean, that boolean is
true exactly when some supported architecture of the app resolves to a
model list containing an entry whose source equals "gen-ai-mz" — an
existential over the architecture set, so the answer does not depend on
iteration order — and it is false for an app with no supported
architectures. -/
theorem c8_gen_ai_iff (cfg : List (String × Yaml)) (app : String) (b : Bool)
    (archs : List String)
    (h : is_gen_ai_app cfg app = Except.ok b)
    (ha : get_supported_architectures cfg app = Except.ok archs) :
    (b = true ↔ ∃ arch ∈ archs, ∃ ms, get_all_models cfg app arch = Except.ok ms ∧
        ∃ m ∈ ms, yamlEqStr m.source "gen-ai-mz" = true) ∧
    (archs = [] → b = false) := by
  unfold is_gen_ai_app at h
  rw [ha] at h
  have h2 : genAiLoop cfg app archs = Except.ok b := h
  constructor
  · exact genAiLoop_ok_iff cfg app archs b h2
  · intro he
    subst he
    have h3 : Except.ok (ε := String) false = Except.ok b := h2
    cases h3
    rfl

/-- Claim C8, witness: the classifier applied to a one-app document whose
only model has the generative source tag. -/
theorem c8_witness :
    ∃ arch ∈ ["hailo10"], ∃ ms, get_all_models genAiDoc "chat" arch = Except.ok ms ∧
      ∃ m ∈ ms, yamlEqStr m.source "gen-ai-mz" = true :=
  ((c8_gen_ai_iff genAiDoc "chat" true ["hailo10"] rfl rfl).1).mp rfl

theorem charListLe_total :
    ∀ as bs : List Char, charListLe as bs = true ∨ charListLe bs as = true := by
  intro as
  induction as with
  | nil => intro bs; left; rfl
  | cons c cs ih =>
    intro bs
    cases bs with
    | nil => right; rfl
    | cons d ds =>
      by_cases hcd : c = d
      · subst hcd
        rcases ih ds with h | h
        · left; simpa [charListLe] using h
        · right; simpa [charListLe] using h
      · rcases lt_trichotomy c d with h | h | h
        · left; simp [charListLe, hcd, h]
        · exact absurd h hcd
        · right
          have hdc : ¬ d = c := fun hx => hcd hx.symm
          simp [charListLe, hdc, h]

theorem charListLe_trans :
    ∀ as bs cs : List Char, charListLe as bs = true → charListLe bs cs = true →
      charListLe as cs = true := by
  intro as
  induction as with
  | nil => intro bs cs h1 h2; rfl
  | cons a as2 ih =>
    intro bs cs h1 h2
    cases bs with
    | nil => simp [charListLe] at h1
    | cons b bs2 =>
      cases cs with
      | nil => simp [charListLe] at h2
      | cons c cs2 =>
        by_cases hab : a = b
        · subst hab
          by_cases hac : a = c
          · subst hac
            simp only [charListLe, if_pos rfl] at h1 h2 ⊢
            exact ih bs2 cs2 h1 h2
          · simp only [charListLe, if_pos rfl] at h1
            simp only [charListLe, if_neg hac] at h2 ⊢
            exact h2
        · simp only [charListLe, if_neg hab, decide_eq_true_eq] at h1
          by_cases hbc : b = c
          · subst hbc
            simp only [charListLe, if_neg hab, decide_eq_true_eq]
            exact h1
          · simp only [charListLe, if_neg hbc, decide_eq_true_eq] at h2
            have hac : a < c := lt_trans h1 h2
            simp only [charListLe, if_neg (ne_of_lt hac), decide_eq_true_eq]
            exact hac

instance : IsTotal String (fun a b => pyStrLe a b = true) :=
  ⟨fun a b => charListLe_total a.data b.data⟩

instance : IsTrans String (fun a b => pyStrLe a b = true) :=
  ⟨fun a b c => charListLe_trans a.data b.data c.data⟩

/-- Claim C9: `get_available_apps` contains exactly the top-level keys
whose value is a mapping and which are not among the five reserved keys
(reserved keys are excluded even when mapping-valued, non-mapping values
are excluded always), and the returned list is sorted under the Python
string order. -/
theorem c9_available_apps (cfg : List (String × Yaml)) :
    (∀ k, k ∈ get_available_apps cfg ↔
      ((∃ v, (k, v) ∈ cfg ∧ Yaml.isMap v = true) ∧ k ∉ skipKeys)) ∧
    List.Sorted (fun a b => pyStrLe a b = true) (get_available_apps cfg) := by
  constructor
  · intro k
    unfold get_available_apps sortStrings
    rw [List.mem_insertionSort]
    constructor
    · intro hk
      rcases List.mem_map.mp hk with ⟨kv, hkv, hfst⟩
      rcases List.mem_filter.mp hkv with ⟨hmem, hp⟩
      rw [Bool.and_eq_true] at hp
      obtain ⟨h1, h2⟩ := hp
      subst hfst
      refine ⟨⟨kv.2, hmem, h1⟩, ?_⟩
      rw [Bool.not_eq_true'] at h2
      intro hks
      have : List.contains skipKeys kv.1 = true := by
        simpa [List.contains] using hks
      rw [this] at h2
      exact Bool.noConfusion h2
    · rintro ⟨⟨v, hmem, hmap⟩, hnot⟩
      refine List.mem_map.mpr ⟨(k, v), List.mem_filter.mpr ⟨hmem, ?_⟩, rfl⟩
      rw [Bool.and_eq_true]
      refine ⟨hmap, ?_⟩
      rw [Bool.not_eq_true']
      simpa [List.contains] using hnot
  · unfold get_available_apps sortStrings
    exact List.sorted_insertionSort (fun a b => pyStrLe a b = true) _

/-- Claim C9, witness: a mapping-valued app key is listed, a
mapping-valued reserved key is not. -/
theorem c9_witness :
    "app" ∈ get_available_apps [("app", Yaml.map []), ("images", Yaml.map [])] ∧
    "images" ∉ get_available_apps [("app", Yaml.map []), ("images", Yaml.map [])] := by
  constructor
  · exact ((c9_available_apps [("app", Yaml.map []), ("images", Yaml.map [])]).1 "app").mpr
      ⟨⟨Yaml.map [], List.mem_cons_self _ _, rfl⟩, by decide⟩
  · intro h
    exact absurd
      (((c9_available_apps [("app", Yaml.map []), ("images", Yaml.map [])]).1 "images").mp h).2
      (by simp [skipKeys])

end ConfigCore
